import Mathlib

/-
Verification development for the winter-SAR field-data repository
(process_tilt.py, process_snow.py, merge_datasets.py).

Modelling conventions, shared by every definition below:
* Timestamps are encoded as natural-number date codes (e.g. 2020-04-12 as
  20200412); the encoding is order-isomorphic to chronological order, which
  is all the code ever uses of a timestamp.
* A pandas Series indexed by timestamps is a `List (Nat × α)` in index order;
  a cell that holds NaN ("missing") is `none`, a real value `some q`.
  Label lookup (`.loc[t]`) is `alookup`, which finds the first row with the
  given label and is `none` exactly when the label is absent from the index
  (the KeyError case in pandas).
* Real-valued columns are modelled over ℚ so that every pipeline definition
  is executable; the trigonometric geometry model (convertAngles) is the one
  definition over ℝ.
-/

/- ---------------------------------------------------------------- -/
/- Geometry model: process_tilt.py, convertAngles (lines 97-122).    -/
/- ---------------------------------------------------------------- -/

/-- Per-site inclinometer arm length in mm (process_tilt.py lines 40-45). -/
def arm_length : List (String × ℚ) :=
  [("site_1", 1470), ("site_2", 1490), ("site_3", 1520),
   ("site_4", 1575), ("site_5", 1590), ("site_6", 1750)]

/-- Per-site inclinometer pivot height in mm (process_tilt.py lines 46-51). -/
def pivot_height : List (String × ℚ) :=
  [("site_1", 120), ("site_2", 140), ("site_3", 140),
   ("site_4", 385), ("site_5", 495), ("site_6", 360)]

/-- convertAngles (process_tilt.py lines 97-122) with the per-site dict
lookups `arm_length[site]`, `pivot_height[site]` passed in as the explicit
parameters L and P.  Body, line by line from the source:
`dYL = np.sin(angle_rads) * arm_length[site]`, sign-flipped when `flip`;
`dX = (1 - np.cos(angle_rads)) * arm_length[site]`;
`dYP = np.sqrt(pivot_height[site]**2 - dX**2)`; result `dYL + dYP`. -/
noncomputable def convertAngles (angle_rads L P : ℝ) (flip : Bool) : ℝ :=
  (if flip then -1 * (Real.sin angle_rads * L) else Real.sin angle_rads * L)
    + Real.sqrt (P ^ 2 - ((1 - Real.cos angle_rads) * L) ^ 2)

/-- C1: for every angle θ, arm length L and pivot height P with
|L·(1 − cos θ)| < P, `convertAngles` returns exactly
L·sin θ + sqrt(P² − (L·(1 − cos θ))²), with the L·sin θ term sign-flipped
when flip = true; and for θ = 0 it returns exactly P. -/
theorem c1_geometry (θ L P : ℝ) (flip : Bool)
    (h : |L * (1 - Real.cos θ)| < P) :
    convertAngles θ L P flip
        = (if flip then -(L * Real.sin θ) else L * Real.sin θ)
          + Real.sqrt (P ^ 2 - (L * (1 - Real.cos θ)) ^ 2)
      ∧ (θ = 0 → convertAngles θ L P flip = P) := by
  have hP : 0 < P := lt_of_le_of_lt (abs_nonneg _) h
  constructor
  · have harg : ((1 - Real.cos θ) * L) ^ 2 = (L * (1 - Real.cos θ)) ^ 2 := by
      ring
    cases flip <;> simp only [convertAngles, harg] <;> ring_nf
  · intro h0
    subst h0
    simp only [convertAngles, Real.sin_zero, Real.cos_zero, sub_self,
      zero_mul, mul_zero, if_pos, if_neg]
    cases flip <;>
      simp [Real.sqrt_sq hP.le]

/-- Witness for c1_geometry at θ = 0, L = 1470, P = 120 (site_1's
constants). -/
theorem c1_geometry_witness :
    |(1470 : ℝ) * (1 - Real.cos 0)| < 120
      ∧ (convertAngles 0 1470 120 false
            = (if false then -((1470 : ℝ) * Real.sin 0)
               else (1470 : ℝ) * Real.sin 0)
              + Real.sqrt ((120 : ℝ) ^ 2 - ((1470 : ℝ) * (1 - Real.cos 0)) ^ 2)
          ∧ ((0 : ℝ) = 0 → convertAngles 0 1470 120 false = 120)) := by
  have h : |(1470 : ℝ) * (1 - Real.cos 0)| < 120 := by
    norm_num [Real.cos_zero]
  exact ⟨h, c1_geometry 0 1470 120 false h⟩

/- ---------------------------------------------------------------- -/
/- Series primitives: pandas label lookup, stable index sort,        -/
/- duplicate-label removal.                                          -/
/- ---------------------------------------------------------------- -/

/-- Label lookup on a time-indexed series (pandas `.loc[t]`): the first row
carrying label t, `none` exactly when t is absent from the index (the
KeyError case). -/
def alookup : List (Nat × α) → Nat → Option α
  | [], _ => none
  | p :: ps, t => if p.1 = t then some p.2 else alookup ps t

theorem alookup_eq_none_iff (l : List (Nat × α)) (t : Nat) :
    alookup l t = none ↔ ∀ p ∈ l, p.1 ≠ t := by
  induction l with
  | nil => simp [alookup]
  | cons p ps ih => by_cases h : p.1 = t <;> simp [alookup, h, ih]

theorem alookup_append_left {l₁ : List (Nat × α)} {t : Nat} {v : α}
    (h : alookup l₁ t = some v) (l₂ : List (Nat × α)) :
    alookup (l₁ ++ l₂) t = some v := by
  induction l₁ with
  | nil => simp [alookup] at h
  | cons p ps ih =>
    by_cases hp : p.1 = t <;> simp_all [alookup, hp]

theorem alookup_append_right {l₁ : List (Nat × α)} {t : Nat}
    (h : alookup l₁ t = none) (l₂ : List (Nat × α)) :
    alookup (l₁ ++ l₂) t = alookup l₂ t := by
  induction l₁ with
  | nil => simp
  | cons p ps ih =>
    by_cases hp : p.1 = t <;> simp_all [alookup, hp]

/-- Lookup through a map that rewrites values but keeps every label. -/
theorem alookup_map_keyed (l : List (Nat × α)) (f : Nat → α → β) (t : Nat) :
    alookup (l.map fun p => (p.1, f p.1 p.2)) t = (alookup l t).map (f t) := by
  induction l with
  | nil => rfl
  | cons p ps ih =>
    by_cases h : p.1 = t
    · subst h; simp [alookup]
    · simp [alookup, h, ih]

theorem alookup_isSome_of_mem {l : List (Nat × α)} {t : Nat}
    (h : t ∈ l.map Prod.fst) : (alookup l t).isSome := by
  induction l with
  | nil => simp at h
  | cons p ps ih =>
    by_cases hp : p.1 = t
    · simp [alookup, hp]
    · simp only [List.map_cons, List.mem_cons] at h
      rcases h with h | h
      · exact absurd h.symm hp
      · simp only [alookup, if_neg hp]
        exact ih h

/-- One step of the stable insertion modelling a pandas `sort_index()`:
insert x after every element whose key does not exceed x's key. -/
def ordIns (key : α → Nat) (x : α) : List α → List α
  | [] => [x]
  | y :: ys => if key x ≤ key y then x :: y :: ys else y :: ordIns key x ys

/-- Stable sort by a Nat-valued key (pandas `sort_index()`): elements with
equal keys keep their original relative order. -/
def sortByKey (key : α → Nat) : List α → List α
  | [] => []
  | x :: xs => ordIns key x (sortByKey key xs)

/-- The list is ordered by non-decreasing key. -/
def KeySorted (key : α → Nat) (l : List α) : Prop :=
  List.Pairwise (fun a b => key a ≤ key b) l

theorem mem_ordIns (key : α → Nat) (x z : α) (l : List α) :
    z ∈ ordIns key x l ↔ z = x ∨ z ∈ l := by
  induction l with
  | nil => simp [ordIns]
  | cons y ys ih =>
    by_cases h : key x ≤ key y
    · simp [ordIns, h]
    · simp [ordIns, h, ih]
      tauto

theorem ordIns_eq_cons (key : α → Nat) (x : α) (l : List α)
    (h : ∀ z ∈ l, key x ≤ key z) : ordIns key x l = x :: l := by
  cases l with
  | nil => rfl
  | cons y ys => simp [ordIns, h y (by simp)]

theorem keySorted_ordIns (key : α → Nat) (x : α) {l : List α}
    (hl : KeySorted key l) : KeySorted key (ordIns key x l) := by
  induction l with
  | nil => simp [ordIns, KeySorted]
  | cons y ys ih =>
    rw [KeySorted, List.pairwise_cons] at hl
    obtain ⟨hy, hys⟩ := hl
    by_cases h : key x ≤ key y
    · rw [ordIns, if_pos h, KeySorted, List.pairwise_cons]
      refine ⟨?_, List.pairwise_cons.mpr ⟨hy, hys⟩⟩
      intro z hz
      rcases List.mem_cons.mp hz with rfl | hz
      · exact h
      · exact le_trans h (hy z hz)
    · rw [ordIns, if_neg h, KeySorted, List.pairwise_cons]
      refine ⟨?_, ih hys⟩
      intro z hz
      rcases (mem_ordIns key x z ys).mp hz with rfl | hz
      · exact le_of_not_le h
      · exact hy z hz

theorem keySorted_sortByKey (key : α → Nat) (l : List α) :
    KeySorted key (sortByKey key l) := by
  induction l with
  | nil => simp [sortByKey, KeySorted]
  | cons x xs ih => rw [sortByKey]; exact keySorted_ordIns key x ih

/-- Filtering commutes with stable insertion into a key-sorted list. -/
theorem filter_ordIns (key : α → Nat) (p : α → Bool) (x : α) {l : List α}
    (hl : KeySorted key l) :
    (ordIns key x l).filter p
      = if p x then ordIns key x (l.filter p) else l.filter p := by
  induction l with
  | nil => cases hpx : p x <;> simp [ordIns, hpx]
  | cons y ys ih =>
    rw [KeySorted, List.pairwise_cons] at hl
    obtain ⟨hy, hys⟩ := hl
    by_cases h : key x ≤ key y
    · have hall : ∀ z ∈ (y :: ys).filter p, key x ≤ key z := by
        intro z hz
        have hz' : z ∈ y :: ys := List.mem_of_mem_filter hz
        rcases List.mem_cons.mp hz' with rfl | hz'
        · exact h
        · exact le_trans h (hy z hz')
      rw [ordIns, if_pos h]
      cases hpx : p x
      · simp [List.filter_cons, hpx]
      · rw [ordIns_eq_cons key x _ hall]
        simp [List.filter_cons, hpx]
    · rw [ordIns, if_neg h]
      cases hpy : p y
      · simp only [List.filter_cons, hpy, cond_false]
        rw [ih hys]
        cases hpx : p x <;> simp [List.filter_cons, hpx, hpy]
      · simp only [List.filter_cons, hpy, cond_true]
        rw [ih hys]
        cases hpx : p x <;>
          simp [List.filter_cons, hpx, hpy, ordIns, h]

/-- Filtering commutes with the stable index sort. -/
theorem filter_sortByKey (key : α → Nat) (p : α → Bool) (l : List α) :
    (sortByKey key l).filter p = sortByKey key (l.filter p) := by
  induction l with
  | nil => rfl
  | cons x xs ih =>
    rw [sortByKey, filter_ordIns key p x (keySorted_sortByKey key xs), ih]
    cases hpx : p x <;> simp [List.filter_cons, hpx, sortByKey]

/-- Stable insertion never changes which row a label lookup finds. -/
theorem alookup_ordIns (x : Nat × α) (l : List (Nat × α)) (t : Nat) :
    alookup (ordIns (fun p => p.1) x l) t
      = if x.1 = t then some x.2 else alookup l t := by
  induction l with
  | nil => simp [ordIns, alookup]
  | cons y ys ih =>
    by_cases h : x.1 ≤ y.1
    · simp [ordIns, h, alookup]
    · by_cases hy : y.1 = t
      · have hxt : ¬ x.1 = t := by omega
        have h2 : ¬ x.1 ≤ t := by omega
        simp [ordIns, h2, alookup, hy, hxt]
      · simp [ordIns, h, alookup, hy, ih]

/-- The stable index sort never changes label lookups (first match by
label survives, matching pandas keep-first semantics downstream). -/
theorem alookup_sortByKey (l : List (Nat × α)) (t : Nat) :
    alookup (sortByKey (fun p => p.1) l) t = alookup l t := by
  induction l with
  | nil => rfl
  | cons x xs ih =>
    rw [sortByKey, alookup_ordIns, ih]
    simp [alookup]

/-- Worker for duplicate-label removal with keep-first semantics
(`df[~df.index.duplicated(keep='first')]`): drop every row whose label was
already seen. -/
def dedupGo (seen : List Nat) : List (Nat × α) → List (Nat × α)
  | [] => []
  | x :: xs =>
    if x.1 ∈ seen then dedupGo seen xs else x :: dedupGo (x.1 :: seen) xs

/-- `df[~df.index.duplicated(keep='first')]`: keep the first row of every
label. -/
def dedupKeepFirst (l : List (Nat × α)) : List (Nat × α) :=
  dedupGo [] l

theorem alookup_dedupGo (seen : List Nat) (l : List (Nat × α)) (t : Nat) :
    alookup (dedupGo seen l) t
      = if t ∈ seen then none else alookup l t := by
  induction l generalizing seen with
  | nil => by_cases hs : t ∈ seen <;> simp [dedupGo, alookup, hs]
  | cons x xs ih =>
    by_cases hx : x.1 ∈ seen
    · rw [dedupGo, if_pos hx, ih]
      by_cases hs : t ∈ seen
      · simp [hs]
      · have hxt : x.1 ≠ t := fun hh => hs (hh ▸ hx)
        simp [hs, alookup, hxt]
    · rw [dedupGo, if_neg hx]
      by_cases hxt : x.1 = t
      · subst hxt
        have hs : x.1 ∉ seen := hx
        simp [alookup, hs]
      · simp only [alookup, if_neg hxt, ih]
        by_cases hs : t ∈ seen
        · simp [hs, List.mem_cons, Or.inr hs]
        · have : t ∉ x.1 :: seen := by
            simp [List.mem_cons]
            exact ⟨fun hh => hxt hh.symm, hs⟩
          simp [hs, this]

theorem alookup_dedupKeepFirst (l : List (Nat × α)) (t : Nat) :
    alookup (dedupKeepFirst l) t = alookup l t := by
  rw [dedupKeepFirst, alookup_dedupGo]
  simp

theorem dedupGo_keys_nodup (seen : List Nat) (l : List (Nat × α)) :
    ((dedupGo seen l).map Prod.fst).Nodup
      ∧ ∀ k ∈ (dedupGo seen l).map Prod.fst, k ∉ seen := by
  induction l generalizing seen with
  | nil => simp [dedupGo]
  | cons x xs ih =>
    by_cases hx : x.1 ∈ seen
    · rw [dedupGo, if_pos hx]
      exact ih seen
    · rw [dedupGo, if_neg hx]
      obtain ⟨h1, h2⟩ := ih (x.1 :: seen)
      refine ⟨?_, ?_⟩
      · rw [List.map_cons, List.nodup_cons]
        refine ⟨fun hmem => ?_, h1⟩
        exact (h2 x.1 hmem) (by simp)
      · intro k hk
        rw [List.map_cons, List.mem_cons] at hk
        rcases hk with rfl | hk
        · exact hx
        · intro hks
          exact (h2 k hk) (by simp [hks])

theorem dedupKeepFirst_keys_nodup (l : List (Nat × α)) :
    ((dedupKeepFirst l).map Prod.fst).Nodup :=
  (dedupGo_keys_nodup [] l).1

/- ---------------------------------------------------------------- -/
/- Deflection processor: process_tilt.py, processData (lines 125-159). -/
/- ---------------------------------------------------------------- -/

/-- Analysis window start, 2018-08-27 (process_tilt.py line 29). -/
def start_date : Nat := 20180827

/-- Analysis window end, 2023-08-01 (process_tilt.py line 31). -/
def end_date : Nat := 20230801

/-- A row of importData's output (process_tilt.py lines 77-94): date index,
two angle channels and the logger temperature, each possibly NaN. -/
structure TRow where
  date : Nat
  angle1 : Option ℚ
  angle2 : Option ℚ
  temp : Option ℚ
  deriving DecidableEq, Repr

/-- A row of processData's working dataframe `out` before the relative
column is added: logger_temp_c and h1_mm (process_tilt.py lines 136-142). -/
structure ORow where
  date : Nat
  temp : Option ℚ
  h1 : Option ℚ
  deriving DecidableEq, Repr

/-- A finished processData row: logger_temp_c, h1_mm, dh1_mm. -/
structure FRow where
  date : Nat
  temp : Option ℚ
  h1 : Option ℚ
  dh1 : Option ℚ
  deriving DecidableEq, Repr

/-- Lines 136-142 of process_tilt.py: build `out` with logger_temp_c and
h1_mm = convertAngles(angle_1, site).  The elementwise real-valued geometry
conversion (convertAngles above, applied with the site's constants) is
abstracted as the parameter `conv`; a missing angle gives a missing
deflection, as NaN propagates through np.sin/np.cos. -/
def mkOut (conv : ℚ → ℚ) (rows : List TRow) : List ORow :=
  rows.map fun r => ⟨r.date, r.temp, r.angle1.map conv⟩

/-- Line 145: `out[out.isna()] = 0` — every NaN in every column of `out`
becomes 0 (both logger_temp_c and h1_mm). -/
def zeroFill (rows : List ORow) : List ORow :=
  rows.map fun r => ⟨r.date, some (r.temp.getD 0), some (r.h1.getD 0)⟩

/-- Line 146: `out = out.sort_index()`. -/
def sortOut (rows : List ORow) : List ORow :=
  sortByKey (fun r => r.date) rows

/-- Lines 149-150: truncate to start_date ≤ index, then index ≤ end_date. -/
def truncateOut (rows : List ORow) : List ORow :=
  (rows.filter fun r => decide (start_date ≤ r.date)).filter
    fun r => decide (r.date ≤ end_date)

/-- The Bool mask `out.logger_temp_c < -35` of line 153 (false on NaN). -/
def tempBad (r : ORow) : Bool :=
  match r.temp with
  | some c => decide (c < -35)
  | none => false

/-- Line 153: `out.h1_mm.loc[out.logger_temp_c < -35] = np.nan`,
row by row. -/
def tempFilterRow (r : ORow) : ORow :=
  if tempBad r then ⟨r.date, r.temp, none⟩ else r

/-- Line 153 applied to the whole series. -/
def tempFilter (rows : List ORow) : List ORow :=
  rows.map tempFilterRow

/-- Line 156's baseline: the first non-null h1_mm value in index order
(`out['h1_mm'].loc[~out['h1_mm'].isnull()].iloc[0]`). -/
def firstH1 (rows : List ORow) : Option ℚ :=
  (rows.filterMap fun r => r.h1).head?

/-- processData's pipeline up to (not including) the temperature filter, in
the source's order: geometry conversion, zero fill, sort, truncation
(lines 136-150). -/
def preTemp (conv : ℚ → ℚ) (rows : List TRow) : List ORow :=
  truncateOut (sortOut (zeroFill (mkOut conv rows)))

/-- processData's pipeline up to (not including) the baseline subtraction
(lines 136-153). -/
def preBaseline (conv : ℚ → ℚ) (rows : List TRow) : List ORow :=
  tempFilter (preTemp conv rows)

/-- The only failure of processData: line 156's `.iloc[0]` on an empty
selection of non-null h1_mm values (the spec's EmptySeriesError). -/
inductive ProcErr where
  | emptySeriesError
  deriving DecidableEq, Repr

/-- Line 156: dh1_mm = h1_mm − baseline, NaN-propagating. -/
def addDh (b : ℚ) (r : ORow) : FRow :=
  ⟨r.date, r.temp, r.h1, r.h1.map fun x => x - b⟩

/-- processData (process_tilt.py lines 125-159): geometry conversion, zero
fill, sort, truncation, temperature filter, baseline subtraction, in the
source's order.  Fails iff the truncated, temperature-filtered series has no
non-null h1_mm value. -/
def processData (conv : ℚ → ℚ) (rows : List TRow) :
    Except ProcErr (List FRow) :=
  match firstH1 (preBaseline conv rows) with
  | none => .error .emptySeriesError
  | some b => .ok ((preBaseline conv rows).map (addDh b))

/-- Truncation of a finished series (used only by processData_spec). -/
def truncateF (rows : List FRow) : List FRow :=
  (rows.filter fun r => decide (start_date ≤ r.date)).filter
    fun r => decide (r.date ≤ end_date)

/-- Index sort of a finished series (used only by processData_spec). -/
def sortF (rows : List FRow) : List FRow :=
  sortByKey (fun r => r.date) rows

/-- Modelled from the spec: the stage order claimed for the deflection
processor — (1) geometry conversion, (2) temperature drop, (3) zero fill of
remaining missing values, (4) baseline subtraction over the whole series,
(5) truncation to the analysis window, (6) sort ascending.  Defined only to
be compared against processData. -/
def processData_spec (conv : ℚ → ℚ) (rows : List TRow) :
    Except ProcErr (List FRow) :=
  match firstH1 (zeroFill (tempFilter (mkOut conv rows))) with
  | none => .error .emptySeriesError
  | some b =>
      .ok (sortF (truncateF
        ((zeroFill (tempFilter (mkOut conv rows))).map (addDh b))))

/-- Payload of a successful processData run (empty list on error); lets the
counterexamples compare pipeline outputs without an Except equality. -/
def okRows : Except ProcErr (List FRow) → List FRow
  | .ok l => l
  | .error _ => []

instance {ε α : Type} [DecidableEq ε] [DecidableEq α] :
    DecidableEq (Except ε α)
  | .ok a, .ok b =>
    if h : a = b then .isTrue (by rw [h]) else
      .isFalse (fun hc => h (by cases hc; rfl))
  | .error a, .error b =>
    if h : a = b then .isTrue (by rw [h]) else
      .isFalse (fun hc => h (by cases hc; rfl))
  | .ok _, .error _ => .isFalse (fun hc => by cases hc)
  | .error _, .ok _ => .isFalse (fun hc => by cases hc)

theorem tempFilterRow_h1 (r : ORow) :
    (tempFilterRow r).h1 = if tempBad r then none else r.h1 := by
  by_cases h : tempBad r <;> simp [tempFilterRow, h]

theorem tempFilterRow_temp (r : ORow) : (tempFilterRow r).temp = r.temp := by
  by_cases h : tempBad r <;> simp [tempFilterRow, h]

/-- C7: if, after filtering, the series has zero non-missing
absolute-deflection values, processData fails with EmptySeriesError — its
only failure mode. -/
theorem c7_empty_series (conv : ℚ → ℚ) (rows : List TRow)
    (h : ∀ r ∈ preBaseline conv rows, r.h1 = none) :
    processData conv rows = .error .emptySeriesError := by
  have hfm : ((preBaseline conv rows).filterMap fun r => r.h1) = [] :=
    List.filterMap_eq_nil_iff.mpr h
  rw [processData, firstH1, hfm]
  rfl

/-- Witness for c7_empty_series: a single in-window reading taken at
−40 °C. -/
def c7rows : List TRow := [⟨20200101, some 1, none, some (-40)⟩]

theorem c7_empty_series_witness :
    (∀ r ∈ preBaseline id c7rows, r.h1 = none)
      ∧ processData id c7rows = .error .emptySeriesError := by
  have h : ∀ r ∈ preBaseline id c7rows, r.h1 = none := by
    with_unfolding_all decide
  exact ⟨h, c7_empty_series id c7rows h⟩

theorem firstDh_of_firstH1 (b : ℚ) (s : List ORow)
    (h : firstH1 s = some b) :
    (((s.map (addDh b)).filterMap fun r => r.dh1).head?) = some 0 := by
  induction s with
  | nil => simp [firstH1] at h
  | cons r rs ih =>
    cases hr : r.h1 with
    | none =>
      have h' : firstH1 rs = some b := by
        simpa [firstH1, List.filterMap_cons, hr] using h
      simpa [addDh, List.filterMap_cons, hr] using ih h'
    | some v =>
      have hvb : v = b := by
        simpa [firstH1, List.filterMap_cons, hr] using h
      simp [addDh, List.filterMap_cons, hr, hvb]

/-- C2: whenever processData succeeds, every output row's dh1_mm is its
h1_mm minus the series' first non-missing h1_mm (missing rows stay
missing), and the first non-missing dh1_mm value is exactly zero. -/
theorem c2_baseline (conv : ℚ → ℚ) (rows : List TRow) (out : List FRow)
    (h : processData conv rows = .ok out) :
    ∃ b : ℚ,
      ((out.filterMap fun r => r.h1).head?) = some b
        ∧ (∀ r ∈ out, r.dh1 = r.h1.map fun x => x - b)
        ∧ ((out.filterMap fun r => r.dh1).head?) = some 0 := by
  rw [processData] at h
  cases hb : firstH1 (preBaseline conv rows) with
  | none => rw [hb] at h; exact absurd h (by simp)
  | some b =>
    rw [hb] at h
    have hout : out = (preBaseline conv rows).map (addDh b) := by
      cases h; rfl
    refine ⟨b, ?_, ?_, ?_⟩
    · rw [hout, List.filterMap_map]
      exact hb
    · intro r hr
      rw [hout] at hr
      obtain ⟨r0, _, rfl⟩ := List.mem_map.mp hr
      rfl
    · rw [hout]
      exact firstDh_of_firstH1 b _ hb

/-- Witness input for c2_baseline: two in-window readings. -/
def c2rows : List TRow :=
  [⟨20200101, some 5, none, some 0⟩, ⟨20200102, some 7, none, some 0⟩]

/-- processData's output on c2rows. -/
def c2out : List FRow :=
  [⟨20200101, some 0, some 5, some 0⟩, ⟨20200102, some 0, some 7, some 2⟩]

theorem c2_baseline_witness :
    processData id c2rows = .ok c2out
      ∧ ∃ b : ℚ,
          ((c2out.filterMap fun r => r.h1).head?) = some b
            ∧ (∀ r ∈ c2out, r.dh1 = r.h1.map fun x => x - b)
            ∧ ((c2out.filterMap fun r => r.dh1).head?) = some 0 := by
  have h : processData id c2rows = .ok c2out := by
    norm_num [processData, preBaseline, preTemp, mkOut, zeroFill, sortOut,
      sortByKey, ordIns, truncateOut, tempFilter, tempFilterRow, tempBad,
      firstH1, addDh, start_date, end_date,
      List.filter_cons, List.filterMap_cons, c2rows, c2out]
  exact ⟨h, c2_baseline id c2rows c2out h⟩

/-- C6: in processData's output, a row whose logger temperature is strictly
below −35 °C has its deflection h1_mm set to missing, and a row whose
temperature is ≥ −35 keeps exactly the deflection it had before the filter;
the temperature column itself is untouched. -/
theorem c6_temp_filter (conv : ℚ → ℚ) (rows : List TRow) (out : List FRow)
    (h : processData conv rows = .ok out) (i : Nat) :
    (out[i]?.map fun r => r.h1)
        = ((preTemp conv rows)[i]?.map fun r =>
            if tempBad r then none else r.h1)
      ∧ (out[i]?.map fun r => r.temp)
        = ((preTemp conv rows)[i]?.map fun r => r.temp) := by
  rw [processData] at h
  cases hb : firstH1 (preBaseline conv rows) with
  | none => rw [hb] at h; exact absurd h (by simp)
  | some b =>
    rw [hb] at h
    have hout : out = (preBaseline conv rows).map (addDh b) := by
      cases h; rfl
    rw [hout, preBaseline, tempFilter, List.map_map]
    constructor <;>
    · rw [List.getElem?_map]
      cases (preTemp conv rows)[i]? with
      | none => rfl
      | some r =>
        simp [Function.comp, addDh, tempFilterRow_h1, tempFilterRow_temp]

/-- Witness input for c6_temp_filter: a −40 °C reading and a −0 °C one. -/
def c6rows : List TRow :=
  [⟨20200101, some 3, none, some (-40)⟩, ⟨20200102, some 4, none, some 0⟩]

/-- processData's output on c6rows. -/
def c6out : List FRow :=
  [⟨20200101, some (-40), none, none⟩, ⟨20200102, some 0, some 4, some 0⟩]

theorem c6_temp_filter_witness :
    processData id c6rows = .ok c6out
      ∧ ((c6out[0]?.map fun r => r.h1)
            = ((preTemp id c6rows)[0]?.map fun r =>
                if tempBad r then none else r.h1)
          ∧ (c6out[0]?.map fun r => r.temp)
            = ((preTemp id c6rows)[0]?.map fun r => r.temp)) := by
  have h : processData id c6rows = .ok c6out := by
    norm_num [processData, preBaseline, preTemp, mkOut, zeroFill, sortOut,
      sortByKey, ordIns, truncateOut, tempFilter, tempFilterRow, tempBad,
      firstH1, addDh, start_date, end_date,
      List.filter_cons, List.filterMap_cons, c6rows, c6out]
  exact ⟨h, c6_temp_filter id c6rows c6out h 0⟩

/-- The geometry-conversion map commutes with the window filter (it keeps
every date). -/
theorem mkOut_filter_window (conv : ℚ → ℚ) (rows : List TRow) :
    mkOut conv (rows.filter fun r =>
        decide (start_date ≤ r.date) && decide (r.date ≤ end_date))
      = (mkOut conv rows).filter fun o =>
          decide (start_date ≤ o.date) && decide (o.date ≤ end_date) := by
  induction rows with
  | nil => rfl
  | cons a as ih =>
    cases hq : decide (start_date ≤ a.date) && decide (a.date ≤ end_date) <;>
      simp [mkOut, List.filter_cons, hq] <;>
      simpa [mkOut] using ih

/-- The zero fill commutes with the window filter (it keeps every date). -/
theorem zeroFill_filter_window (l : List ORow) :
    zeroFill (l.filter fun o =>
        decide (start_date ≤ o.date) && decide (o.date ≤ end_date))
      = (zeroFill l).filter fun o =>
          decide (start_date ≤ o.date) && decide (o.date ≤ end_date) := by
  induction l with
  | nil => rfl
  | cons a as ih =>
    cases hq : decide (start_date ≤ a.date) && decide (a.date ≤ end_date) <;>
      simp [zeroFill, List.filter_cons, hq] <;>
      simpa [zeroFill] using ih

theorem truncateOut_filter_window (l : List ORow) :
    truncateOut (l.filter fun r =>
        decide (start_date ≤ r.date) && decide (r.date ≤ end_date))
      = truncateOut l := by
  rw [truncateOut, truncateOut, List.filter_filter, List.filter_filter,
    List.filter_filter]
  apply List.filter_congr
  intro r _
  cases h1 : decide (start_date ≤ r.date) <;>
    cases h2 : decide (r.date ≤ end_date) <;> simp [h1, h2]

theorem preBaseline_filter_window (conv : ℚ → ℚ) (rows : List TRow) :
    preBaseline conv (rows.filter fun r =>
        decide (start_date ≤ r.date) && decide (r.date ≤ end_date))
      = preBaseline conv rows := by
  rw [preBaseline, preBaseline, preTemp, preTemp]
  have hsort : sortOut ((zeroFill (mkOut conv rows)).filter fun o =>
        decide (start_date ≤ o.date) && decide (o.date ≤ end_date))
      = (sortOut (zeroFill (mkOut conv rows))).filter fun o =>
          decide (start_date ≤ o.date) && decide (o.date ≤ end_date) := by
    rw [sortOut, sortOut]
    exact (filter_sortByKey (fun o : ORow => o.date) _ _).symm
  rw [mkOut_filter_window, zeroFill_filter_window, hsort,
    truncateOut_filter_window]

/-- C5 (amended): in processData the truncation to
[start_date, end_date] happens before the temperature filter and before the
baseline subtraction, so readings outside the analysis window never
influence the output at all. -/
theorem c5_truncation_before_baseline (conv : ℚ → ℚ) (rows : List TRow) :
    processData conv rows
      = processData conv (rows.filter fun r =>
          decide (start_date ≤ r.date) && decide (r.date ≤ end_date)) := by
  rw [processData, processData, preBaseline_filter_window]

/-- Counterexample input for C5: one reading before start_date followed by
two in-window readings. -/
def c5rows : List TRow :=
  [⟨20100101, some 5, none, some 0⟩,
   ⟨20200101, some 1, none, some 0⟩,
   ⟨20200102, some 3, none, some 0⟩]

/-- C5 counterexample: with a reading before start_date the code's output
(baseline = first in-window deflection, so the first dh1_mm is 0) differs
from the spec-ordered pipeline (baseline = first deflection of the whole
untruncated series). -/
theorem c5_counterexample :
    okRows (processData id c5rows)
        = [⟨20200101, some 0, some 1, some 0⟩,
           ⟨20200102, some 0, some 3, some 2⟩]
      ∧ okRows (processData_spec id c5rows)
          = [⟨20200101, some 0, some 1, some (-4)⟩,
             ⟨20200102, some 0, some 3, some (-2)⟩]
      ∧ processData id c5rows ≠ processData_spec id c5rows := by
  have e1 : okRows (processData id c5rows)
      = [⟨20200101, some 0, some 1, some 0⟩,
         ⟨20200102, some 0, some 3, some 2⟩] := by
    norm_num [okRows, processData, preBaseline, preTemp, mkOut, zeroFill, sortOut,
      sortByKey, ordIns, truncateOut, tempFilter, tempFilterRow, tempBad,
      firstH1, addDh, start_date, end_date,
      List.filter_cons, List.filterMap_cons, c5rows]
  have e2 : okRows (processData_spec id c5rows)
      = [⟨20200101, some 0, some 1, some (-4)⟩,
         ⟨20200102, some 0, some 3, some (-2)⟩] := by
    norm_num [okRows, processData_spec, sortF, truncateF, processData, preBaseline, preTemp, mkOut, zeroFill, sortOut,
      sortByKey, ordIns, truncateOut, tempFilter, tempFilterRow, tempBad,
      firstH1, addDh, start_date, end_date,
      List.filter_cons, List.filterMap_cons, c5rows]
  refine ⟨e1, e2, fun hc => ?_⟩
  have h2 := congrArg okRows hc
  rw [e1, e2] at h2
  norm_num at h2

/- ---------------------------------------------------------------- -/
/- Heave-corrected snow processor: process_snow.py,                  -/
/- correct_for_heave (lines 132-183).                                -/
/- ---------------------------------------------------------------- -/

/-- Snow-on-ground season windows (process_snow.py lines 33-36), keyed by
season year, as (start, end) date codes. -/
def snow_on_ground : List (String × Nat × Nat) :=
  [("2019", (20191005, 20200523)),
   ("2020", (20201009, 20210514)),
   ("2021", (20210927, 20220510)),
   ("2022", (20220927, 20230601))]

/-- One row of the heave-corrected output frame: snow_depth_cm,
snow_sub_heave and heave_cm, each possibly missing. -/
structure SRow where
  snow : Option ℚ
  ssh : Option ℚ
  heave : Option ℚ
  deriving DecidableEq, Repr

/-- NaN-propagating subtraction of two cells. -/
def omSub : Option ℚ → Option ℚ → Option ℚ
  | some a, some b => some (a - b)
  | _, _ => none

/-- Membership of a date in a season window (half-open, lines 160-161). -/
def inWindow (t : Nat) (w : String × Nat × Nat) : Prop :=
  w.2.1 ≤ t ∧ t < w.2.2

instance (t : Nat) (w : String × Nat × Nat) : Decidable (inWindow t w) :=
  instDecidableAnd

/-- Lines 142-154: `sdf_copy` — the original snow depths joined with the
tilt series' dh1_mm values (missing when the date has no tilt row). -/
def sdfCopy (sdf tilt : List (Nat × Option ℚ)) :
    List (Nat × Option ℚ × Option ℚ) :=
  sdf.map fun r => (r.1, r.2, (alookup tilt r.1).join)

/-- Lines 160-164: restrict `sdf_copy` to the season window (half-open),
with the site_2/2019 sensor-failure truncation at 2020-04-12. -/
def seasonOf (sdfc : List (Nat × Option ℚ × Option ℚ)) (site : String)
    (w : String × Nat × Nat) : List (Nat × Option ℚ × Option ℚ) :=
  let s := sdfc.filter fun r => decide (w.2.1 ≤ r.1) && decide (r.1 < w.2.2)
  if site = "site_2" ∧ w.1 = "2019" then
    s.filter fun r => decide (r.1 < 20200412)
  else s

/-- Lines 166-171, snow channel: the re-baselined snow depths — subtract
the value observed at the window start from every value; when the start
date is absent from the season's index (the KeyError caught by the bare
except) fall back to the raw values. -/
def correctedSD (sdfc : List (Nat × Option ℚ × Option ℚ)) (site : String)
    (w : String × Nat × Nat) : List (Nat × Option ℚ) :=
  match alookup (seasonOf sdfc site w) w.2.1 with
  | some p0 => (seasonOf sdfc site w).map fun r => (r.1, omSub r.2.1 p0.1)
  | none => (seasonOf sdfc site w).map fun r => (r.1, r.2.1)

/-- Lines 166-171, heave channel. -/
def correctedDH (sdfc : List (Nat × Option ℚ × Option ℚ)) (site : String)
    (w : String × Nat × Nat) : List (Nat × Option ℚ) :=
  match alookup (seasonOf sdfc site w) w.2.1 with
  | some p0 => (seasonOf sdfc site w).map fun r => (r.1, omSub r.2.2 p0.2)
  | none => (seasonOf sdfc site w).map fun r => (r.1, r.2.2)

/-- Lines 173-175: `dh_copy = corrected_dh * 0.1` with NaN set to zero. -/
def dhCopyAt (corrDH : List (Nat × Option ℚ)) (t : Nat) : ℚ :=
  match (alookup corrDH t).join with
  | some d => d / 10
  | none => 0

/-- Lines 178-181 at one output row (date t): write the re-baselined snow
depth and snow-sub-heave at the season's dates, rewrite the whole heave_cm
column from this window's corrected_dh (`sdf['heave_cm'] = corrected_dh*0.1`
assigns the entire column, aligning to NaN off the season), then blank the
whole row when its snow depth is negative. -/
def stepRow (corrSD corrDH : List (Nat × Option ℚ)) (t : Nat)
    (row : SRow) : SRow :=
  let row1 :=
    match alookup corrSD t with
    | some v =>
        { row with snow := v, ssh := v.map fun x => x - dhCopyAt corrDH t }
    | none => row
  let row2 :=
    { row1 with heave := ((alookup corrDH t).join).map fun d => d / 10 }
  match row2.snow with
  | some v => if v < 0 then ⟨none, none, none⟩ else row2
  | none => row2

/-- Lines 157-181: one iteration of the season loop, applied to the shared
output frame. -/
def windowStep (site : String) (sdfc : List (Nat × Option ℚ × Option ℚ))
    (out : List (Nat × SRow)) (w : String × Nat × Nat) :
    List (Nat × SRow) :=
  out.map fun p =>
    (p.1, stepRow (correctedSD sdfc site w) (correctedDH sdfc site w) p.1 p.2)

/-- correct_for_heave (process_snow.py lines 132-183): blank the snow
column, join the tilt series, then run the season loop; the source iterates
the global snow_on_ground table, a parameter here.  Output columns:
snow_depth_cm, snow_sub_heave, heave_cm. -/
def correct_for_heave (sdf tilt : List (Nat × Option ℚ)) (site : String)
    (windows : List (String × Nat × Nat)) : List (Nat × SRow) :=
  windows.foldl (windowStep site (sdfCopy sdf tilt))
    (sdf.map fun r => (r.1, ⟨none, none, none⟩))

/-- Lookup through a map that rewrites values independently of the label. -/
theorem alookup_map_snd (l : List (Nat × α)) (g : α → β) (t : Nat) :
    alookup (l.map fun p => (p.1, g p.2)) t = (alookup l t).map g := by
  induction l with
  | nil => rfl
  | cons p ps ih =>
    by_cases h : p.1 = t
    · subst h; simp [alookup]
    · simp [alookup, h, ih]

theorem alookup_windowStep (site : String)
    (sdfc : List (Nat × Option ℚ × Option ℚ)) (out : List (Nat × SRow))
    (w : String × Nat × Nat) (t : Nat) :
    alookup (windowStep site sdfc out w) t
      = (alookup out t).map
          (stepRow (correctedSD sdfc site w) (correctedDH sdfc site w) t) := by
  rw [windowStep]
  exact alookup_map_keyed out
    (fun u row => stepRow (correctedSD sdfc site w) (correctedDH sdfc site w)
      u row) t

theorem seasonOf_alookup_none (sdfc : List (Nat × Option ℚ × Option ℚ))
    (site : String) (w : String × Nat × Nat) (t : Nat)
    (h : ¬ inWindow t w) : alookup (seasonOf sdfc site w) t = none := by
  rw [alookup_eq_none_iff]
  intro p hp hpt
  have hmem : p ∈ sdfc.filter fun r =>
      decide (w.2.1 ≤ r.1) && decide (r.1 < w.2.2) := by
    rw [seasonOf] at hp
    split at hp
    · exact List.mem_of_mem_filter hp
    · exact hp
  have hb := (List.mem_filter.mp hmem).2
  simp only [Bool.and_eq_true, decide_eq_true_eq] at hb
  exact h (hpt ▸ ⟨hb.1, hb.2⟩)

theorem correctedSD_alookup_raw (sdfc : List (Nat × Option ℚ × Option ℚ))
    (site : String) (w : String × Nat × Nat) (t : Nat)
    (hns : alookup (seasonOf sdfc site w) w.2.1 = none) :
    alookup (correctedSD sdfc site w) t
      = (alookup (seasonOf sdfc site w) t).map fun pr => pr.1 := by
  rw [correctedSD, hns]
  exact alookup_map_snd _ _ t

theorem correctedSD_alookup_rebased (sdfc : List (Nat × Option ℚ × Option ℚ))
    (site : String) (w : String × Nat × Nat) (t : Nat)
    (p0 : Option ℚ × Option ℚ)
    (hm : alookup (seasonOf sdfc site w) w.2.1 = some p0) :
    alookup (correctedSD sdfc site w) t
      = (alookup (seasonOf sdfc site w) t).map fun pr => omSub pr.1 p0.1 := by
  rw [correctedSD, hm]
  exact alookup_map_snd (seasonOf sdfc site w) (fun pr => omSub pr.1 p0.1) t

theorem correctedDH_alookup_raw (sdfc : List (Nat × Option ℚ × Option ℚ))
    (site : String) (w : String × Nat × Nat) (t : Nat)
    (hns : alookup (seasonOf sdfc site w) w.2.1 = none) :
    alookup (correctedDH sdfc site w) t
      = (alookup (seasonOf sdfc site w) t).map fun pr => pr.2 := by
  rw [correctedDH, hns]
  exact alookup_map_snd _ _ t

theorem correctedDH_alookup_rebased (sdfc : List (Nat × Option ℚ × Option ℚ))
    (site : String) (w : String × Nat × Nat) (t : Nat)
    (p0 : Option ℚ × Option ℚ)
    (hm : alookup (seasonOf sdfc site w) w.2.1 = some p0) :
    alookup (correctedDH sdfc site w) t
      = (alookup (seasonOf sdfc site w) t).map fun pr => omSub pr.2 p0.2 := by
  rw [correctedDH, hm]
  exact alookup_map_snd (seasonOf sdfc site w) (fun pr => omSub pr.2 p0.2) t

theorem correctedSD_alookup_none (sdfc : List (Nat × Option ℚ × Option ℚ))
    (site : String) (w : String × Nat × Nat) (t : Nat)
    (h : ¬ inWindow t w) : alookup (correctedSD sdfc site w) t = none := by
  have hs := seasonOf_alookup_none sdfc site w t h
  cases hm : alookup (seasonOf sdfc site w) w.2.1 with
  | none => rw [correctedSD_alookup_raw sdfc site w t hm, hs]; rfl
  | some p0 => rw [correctedSD_alookup_rebased sdfc site w t p0 hm, hs]; rfl

theorem correctedDH_alookup_none (sdfc : List (Nat × Option ℚ × Option ℚ))
    (site : String) (w : String × Nat × Nat) (t : Nat)
    (h : ¬ inWindow t w) : alookup (correctedDH sdfc site w) t = none := by
  have hs := seasonOf_alookup_none sdfc site w t h
  cases hm : alookup (seasonOf sdfc site w) w.2.1 with
  | none => rw [correctedDH_alookup_raw sdfc site w t hm, hs]; rfl
  | some p0 => rw [correctedDH_alookup_rebased sdfc site w t p0 hm, hs]; rfl

/-- A date outside the window is untouched by the window's step when its
row is still all-missing. -/
theorem stepRow_out_of_window (sdfc : List (Nat × Option ℚ × Option ℚ))
    (site : String) (w : String × Nat × Nat) (t : Nat)
    (h : ¬ inWindow t w) :
    stepRow (correctedSD sdfc site w) (correctedDH sdfc site w) t
        ⟨none, none, none⟩ = ⟨none, none, none⟩ := by
  simp [stepRow, correctedSD_alookup_none sdfc site w t h,
    correctedDH_alookup_none sdfc site w t h]

/-- Folding windows that all miss date t keeps t's all-missing row. -/
theorem foldl_out_of_windows (site : String)
    (sdfc : List (Nat × Option ℚ × Option ℚ)) (t : Nat) :
    ∀ (ws : List (String × Nat × Nat)) (out : List (Nat × SRow)),
      (∀ w ∈ ws, ¬ inWindow t w) →
      alookup out t = some ⟨none, none, none⟩ →
      alookup (ws.foldl (windowStep site sdfc) out) t
        = some ⟨none, none, none⟩ := by
  intro ws
  induction ws with
  | nil => intro out _ h0; exact h0
  | cons w ws ih =>
    intro out hw h0
    rw [List.foldl_cons]
    apply ih
    · intro w' hw'
      exact hw w' (List.mem_cons_of_mem _ hw')
    · rw [alookup_windowStep, h0]
      simp [stepRow_out_of_window sdfc site w t (hw w (List.mem_cons_self w ws))]

/-- Window steps never create or drop rows: lookups stay defined. -/
theorem foldl_isSome (site : String)
    (sdfc : List (Nat × Option ℚ × Option ℚ)) (t : Nat) :
    ∀ (ws : List (String × Nat × Nat)) (out : List (Nat × SRow)),
      (alookup out t).isSome →
      (alookup (ws.foldl (windowStep site sdfc) out) t).isSome := by
  intro ws
  induction ws with
  | nil => intro out h; exact h
  | cons w ws ih =>
    intro out h
    rw [List.foldl_cons]
    apply ih
    rcases Option.isSome_iff_exists.mp h with ⟨r, hr⟩
    rw [alookup_windowStep, hr]
    rfl

/-- The initial output frame carries an all-missing row at every date of
the snow series. -/
theorem alookup_out_init (sdf : List (Nat × Option ℚ)) (t : Nat)
    (h : t ∈ sdf.map Prod.fst) :
    alookup (sdf.map fun r => (r.1, (⟨none, none, none⟩ : SRow))) t
      = some ⟨none, none, none⟩ := by
  rcases Option.isSome_iff_exists.mp (alookup_isSome_of_mem h) with ⟨v, hv⟩
  exact (alookup_map_snd sdf (fun _ => (⟨none, none, none⟩ : SRow)) t).trans
    (by rw [hv]; rfl)

/-- C3 (amended): every timestamp of the snow series lying outside every
season window ends with all output fields missing — snow_depth_cm,
snow_sub_heave and heave_cm. -/
theorem c3_out_of_window_missing (sdf tilt : List (Nat × Option ℚ))
    (site : String) (windows : List (String × Nat × Nat)) (t : Nat)
    (hmem : t ∈ sdf.map Prod.fst)
    (hout : ∀ w ∈ windows, ¬ inWindow t w) :
    alookup (correct_for_heave sdf tilt site windows) t
      = some ⟨none, none, none⟩ := by
  rw [correct_for_heave]
  exact foldl_out_of_windows site (sdfCopy sdf tilt) t windows _ hout
    (alookup_out_init sdf t hmem)

theorem c3_out_of_window_missing_witness :
    ((100 : Nat) ∈
        ([(100, some 5), (150, some 2)] : List (Nat × Option ℚ)).map Prod.fst
      ∧ ∀ w ∈ [("2021", ((200 : Nat), (300 : Nat)))], ¬ inWindow 100 w)
    ∧ alookup (correct_for_heave [(100, some 5), (150, some 2)] []
        "site_1" [("2021", (200, 300))]) 100 = some ⟨none, none, none⟩ := by
  have h1 : (100 : Nat) ∈
      ([(100, some 5), (150, some 2)] : List (Nat × Option ℚ)).map Prod.fst :=
    by simp
  have h2 : ∀ w ∈ [("2021", ((200 : Nat), (300 : Nat)))], ¬ inWindow 100 w :=
    by decide
  exact ⟨⟨h1, h2⟩,
    c3_out_of_window_missing [(100, some 5), (150, some 2)] [] "site_1"
      [("2021", (200, 300))] 100 h1 h2⟩

/-- Counterexample data for C3: one window over both dates; snow 5 then
2 cm; tilt 0 then 10 mm. -/
def c3sdf : List (Nat × Option ℚ) := [(100, some 5), (150, some 2)]

/-- Tilt (dh1_mm) series of the C3 counterexample. -/
def c3tilt : List (Nat × Option ℚ) := [(100, some 0), (150, some 10)]

/-- Season windows of the C3 counterexample. -/
def c3w : List (String × Nat × Nat) := [("2021", (100, 200))]

/-- C3 counterexample: correct_for_heave is not idempotent.  On the first
run the row at 150 is blanked (re-baselined snow 2 − 5 = −3 < 0), taking
heave_cm with it; running the correction again on its own output recomputes
heave_cm from the unchanged tilt series and restores it to 1. -/
theorem c3_counterexample :
    correct_for_heave c3sdf c3tilt "site_1" c3w
        = [(100, ⟨some 0, some 0, some 0⟩), (150, ⟨none, none, none⟩)]
      ∧ correct_for_heave
            ((correct_for_heave c3sdf c3tilt "site_1" c3w).map fun p =>
              (p.1, p.2.snow)) c3tilt "site_1" c3w
          = [(100, ⟨some 0, some 0, some 0⟩), (150, ⟨none, none, some 1⟩)]
      ∧ correct_for_heave
            ((correct_for_heave c3sdf c3tilt "site_1" c3w).map fun p =>
              (p.1, p.2.snow)) c3tilt "site_1" c3w
          ≠ correct_for_heave c3sdf c3tilt "site_1" c3w := by
  have e1 : correct_for_heave c3sdf c3tilt "site_1" c3w
      = [(100, ⟨some 0, some 0, some 0⟩), (150, ⟨none, none, none⟩)] := by
    norm_num [correct_for_heave, windowStep, stepRow, correctedSD,
      correctedDH, seasonOf, sdfCopy, dhCopyAt, omSub, alookup, c3sdf,
      c3tilt, c3w, List.filter_cons, List.foldl_cons, List.foldl_nil,
      Option.join]
  have e2 : correct_for_heave
        ((correct_for_heave c3sdf c3tilt "site_1" c3w).map fun p =>
          (p.1, p.2.snow)) c3tilt "site_1" c3w
      = [(100, ⟨some 0, some 0, some 0⟩), (150, ⟨none, none, some 1⟩)] := by
    rw [e1]
    norm_num [correct_for_heave, windowStep, stepRow, correctedSD,
      correctedDH, seasonOf, sdfCopy, dhCopyAt, omSub, alookup, c3tilt,
      c3w, List.filter_cons, List.foldl_cons, List.foldl_nil, Option.join]
  refine ⟨e1, e2, ?_⟩
  rw [e2, e1]
  simp

/-- C4 (amended): a timestamp of a season window whose re-baselined (raw,
when re-baselining was skipped) snow depth is negative gets its entire
output row blanked — snow_depth_cm, snow_sub_heave and heave_cm all
missing — provided it lies in no later season window. -/
theorem c4_negative_snow_blanked (sdf tilt : List (Nat × Option ℚ))
    (site : String) (ws₁ ws₂ : List (String × Nat × Nat))
    (w : String × Nat × Nat) (t : Nat) (v : ℚ)
    (hmem : t ∈ sdf.map Prod.fst)
    (hv : alookup (correctedSD (sdfCopy sdf tilt) site w) t = some (some v))
    (hneg : v < 0)
    (hlater : ∀ w' ∈ ws₂, ¬ inWindow t w') :
    alookup (correct_for_heave sdf tilt site (ws₁ ++ w :: ws₂)) t
      = some ⟨none, none, none⟩ := by
  rw [correct_for_heave, List.foldl_append, List.foldl_cons]
  apply foldl_out_of_windows site (sdfCopy sdf tilt) t ws₂ _ hlater
  have h1 : (alookup (ws₁.foldl (windowStep site (sdfCopy sdf tilt))
      (sdf.map fun r => (r.1, (⟨none, none, none⟩ : SRow)))) t).isSome := by
    apply foldl_isSome
    rw [alookup_out_init sdf t hmem]
    rfl
  rcases Option.isSome_iff_exists.mp h1 with ⟨r, hr⟩
  rw [alookup_windowStep, hr]
  simp [stepRow, hv, hneg]

/-- Witness data for c4_negative_snow_blanked. -/
def c4wSdf : List (Nat × Option ℚ) := [(100, some 5), (150, some 2)]

theorem c4_negative_snow_blanked_witness :
    (alookup (correctedSD (sdfCopy c4wSdf []) "site_1" ("2021", (100, 200)))
          150 = some (some (-3))
        ∧ ((-3 : ℚ) < 0))
    ∧ alookup (correct_for_heave c4wSdf [] "site_1"
        [("2021", (100, 200))]) 150 = some ⟨none, none, none⟩ := by
  have hv : alookup (correctedSD (sdfCopy c4wSdf []) "site_1"
      ("2021", (100, 200))) 150 = some (some (-3)) := by
    norm_num [correctedSD, seasonOf, sdfCopy, omSub, alookup, c4wSdf,
      List.filter_cons, Option.join]
  have hneg : (-3 : ℚ) < 0 := by norm_num
  have hmem : (150 : Nat) ∈ c4wSdf.map Prod.fst := by simp [c4wSdf]
  have hlater : ∀ w' ∈ ([] : List (String × Nat × Nat)),
      ¬ inWindow 150 w' := by simp
  exact ⟨⟨hv, hneg⟩,
    c4_negative_snow_blanked c4wSdf [] "site_1" [] [] ("2021", (100, 200))
      150 (-3) hmem hv hneg hlater⟩

/-- Counterexample data for C4: raw snow depths −5 and −3 cm. -/
def c4sdf : List (Nat × Option ℚ) := [(100, some (-5)), (150, some (-3))]

/-- C4 counterexample: the raw snow depth at 150 is −3 (negative), yet its
output row is not blanked — it holds the re-baselined snow
−3 − (−5) = 2; the code keys the blanking on the re-baselined snow depth,
not on the raw one. -/
theorem c4_counterexample :
    alookup c4sdf 150 = some (some (-3))
      ∧ alookup (correct_for_heave c4sdf [] "site_1"
          [("2021", (100, 200))]) 150 = some ⟨some 2, some 2, none⟩
      ∧ ((⟨some 2, some 2, none⟩ : SRow) ≠ ⟨none, none, none⟩) := by
  refine ⟨by norm_num [c4sdf, alookup], ?_, by simp⟩
  norm_num [correct_for_heave, windowStep, stepRow, correctedSD, correctedDH,
    seasonOf, sdfCopy, dhCopyAt, omSub, alookup, c4sdf, List.filter_cons,
    List.foldl_cons, List.foldl_nil, Option.join]

/-- C8: when the window's start date is absent from the season's index the
correction does not fail (the KeyError is caught): re-baselining is skipped
for that window and its rows receive the raw snow depth and the raw heave
(converted mm→cm), missing heave contributing zero to snow_sub_heave. -/
theorem c8_skip_rebaseline (sdf tilt : List (Nat × Option ℚ)) (site : String)
    (ws₁ : List (String × Nat × Nat)) (w : String × Nat × Nat)
    (t : Nat) (v : ℚ) (d : Option ℚ)
    (hmem : t ∈ sdf.map Prod.fst)
    (hns : alookup (seasonOf (sdfCopy sdf tilt) site w) w.2.1 = none)
    (ht : alookup (seasonOf (sdfCopy sdf tilt) site w) t = some (some v, d))
    (hv : ¬ v < 0) :
    alookup (correct_for_heave sdf tilt site (ws₁ ++ [w])) t
      = some ⟨some v,
          some (v - match d with | some d0 => d0 / 10 | none => 0),
          d.map fun x => x / 10⟩ := by
  rw [correct_for_heave, List.foldl_append, List.foldl_cons, List.foldl_nil]
  have hsd : alookup (correctedSD (sdfCopy sdf tilt) site w) t
      = some (some v) := by
    rw [correctedSD_alookup_raw _ _ _ _ hns, ht]
    rfl
  have hdh : alookup (correctedDH (sdfCopy sdf tilt) site w) t
      = some d := by
    rw [correctedDH_alookup_raw _ _ _ _ hns, ht]
    rfl
  have h1 : (alookup (ws₁.foldl (windowStep site (sdfCopy sdf tilt))
      (sdf.map fun r => (r.1, (⟨none, none, none⟩ : SRow)))) t).isSome := by
    apply foldl_isSome
    rw [alookup_out_init sdf t hmem]
    rfl
  rcases Option.isSome_iff_exists.mp h1 with ⟨r, hr⟩
  rw [alookup_windowStep, hr]
  cases d with
  | none => simp [stepRow, hsd, hdh, dhCopyAt, hv]
  | some d0 => simp [stepRow, hsd, hdh, dhCopyAt, hv]

/-- Witness snow series for c8_skip_rebaseline: no observation at the
window start 100. -/
def c8sdf : List (Nat × Option ℚ) := [(150, some 4)]

/-- Witness tilt series for c8_skip_rebaseline. -/
def c8tilt : List (Nat × Option ℚ) := [(150, some 20)]

theorem c8_skip_rebaseline_witness :
    (alookup (seasonOf (sdfCopy c8sdf c8tilt) "site_1" ("2021", (100, 200)))
          100 = none
        ∧ alookup (seasonOf (sdfCopy c8sdf c8tilt) "site_1"
            ("2021", (100, 200))) 150 = some (some 4, some 20))
    ∧ alookup (correct_for_heave c8sdf c8tilt "site_1"
        [("2021", (100, 200))]) 150
      = some ⟨some 4,
          some (4 - match (some (20 : ℚ)) with | some d0 => d0 / 10 | none => 0),
          (some (20 : ℚ)).map fun x => x / 10⟩ := by
  have hns : alookup (seasonOf (sdfCopy c8sdf c8tilt) "site_1"
      ("2021", (100, 200))) 100 = none := by
    norm_num [seasonOf, sdfCopy, alookup, c8sdf, c8tilt, List.filter_cons,
      Option.join]
  have ht : alookup (seasonOf (sdfCopy c8sdf c8tilt) "site_1"
      ("2021", (100, 200))) 150 = some (some 4, some 20) := by
    norm_num [seasonOf, sdfCopy, alookup, c8sdf, c8tilt, List.filter_cons,
      Option.join]
  have hmem : (150 : Nat) ∈ c8sdf.map Prod.fst := by simp [c8sdf]
  have hv : ¬ (4 : ℚ) < 0 := by norm_num
  exact ⟨⟨hns, ht⟩,
    c8_skip_rebaseline c8sdf c8tilt "site_1" [] ("2021", (100, 200))
      150 4 (some 20) hmem hns ht hv⟩

/- ---------------------------------------------------------------- -/
/- External reference merge: process_snow.py,                        -/
/- combine_snow_with_EC (lines 87-107).                              -/
/- ---------------------------------------------------------------- -/

/-- A snow-series row after the two Environment Canada merges: the series'
own fields plus the merged 'Snow on Grnd (cm)' columns from Inuvik (suffix
_x, first merge) and Trail Valley (suffix _y, second merge). -/
structure ECRow where
  snow : Option ℚ
  ssh : Option ℚ
  heave : Option ℚ
  sog_x : Option ℚ
  sog_y : Option ℚ
  deriving DecidableEq, Repr

/-- combine_snow_with_EC (process_snow.py lines 87-107): left-join the
Inuvik then the Trail Valley daily reference series on the date index
(getMetData is a left merge, so a date absent from the reference table gets
a missing value), then set snow_depth_cm to NaN wherever the merged Inuvik
'Snow on Grnd (cm)_x' value is missing (line 105).  The reference tables
are modelled by their snow-on-ground column, the only one this function
reads. -/
def combine_snow_with_EC (sdf : List (Nat × SRow))
    (inuvik trailvalley : List (Nat × Option ℚ)) : List (Nat × ECRow) :=
  sdf.map fun p =>
    (p.1,
      { snow :=
          (match (alookup inuvik p.1).join with
          | none => none
          | some _ => p.2.snow)
        ssh := p.2.ssh
        heave := p.2.heave
        sog_x := (alookup inuvik p.1).join
        sog_y := (alookup trailvalley p.1).join })

/-- C10: the Environment Canada merge is not purely annotating — at every
date whose merged Inuvik snow-on-ground value is missing, the series' own
snow_depth_cm is forced to missing (and kept unchanged otherwise), while
the other series fields (snow_sub_heave, heave_cm) pass through
unchanged. -/
theorem c10_ec_merge (sdf : List (Nat × SRow))
    (inuvik trailvalley : List (Nat × Option ℚ)) (t : Nat) (r : SRow)
    (h : alookup sdf t = some r) :
    ((alookup (combine_snow_with_EC sdf inuvik trailvalley) t).map
        fun e => (e.snow, e.ssh, e.heave))
      = some
          (match (alookup inuvik t).join with
            | none => none
            | some _ => r.snow,
           r.ssh, r.heave) := by
  have hm : alookup (combine_snow_with_EC sdf inuvik trailvalley) t
      = (alookup sdf t).map (fun row =>
          ({ snow :=
              (match (alookup inuvik t).join with
                | none => none
                | some _ => row.snow),
             ssh := row.ssh,
             heave := row.heave,
             sog_x := (alookup inuvik t).join,
             sog_y := (alookup trailvalley t).join } : ECRow)) := by
    rw [combine_snow_with_EC]
    exact alookup_map_keyed sdf
      (fun u row =>
        ({ snow :=
            (match (alookup inuvik u).join with
              | none => none
              | some _ => row.snow),
           ssh := row.ssh,
           heave := row.heave,
           sog_x := (alookup inuvik u).join,
           sog_y := (alookup trailvalley u).join } : ECRow)) t
  rw [hm, h]
  rfl

/-- Witness snow series for c10_ec_merge. -/
def c10sdf : List (Nat × SRow) := [(5, ⟨some 1, some 2, some 3⟩)]

theorem c10_ec_merge_witness :
    alookup c10sdf 5 = some ⟨some 1, some 2, some 3⟩
      ∧ ((alookup (combine_snow_with_EC c10sdf [] [(5, some 7)]) 5).map
            fun e => (e.snow, e.ssh, e.heave))
          = some
              (match (alookup ([] : List (Nat × Option ℚ)) 5).join with
                | none => none
                | some _ => some 1,
               some 2, some 3) := by
  have h : alookup c10sdf 5 = some ⟨some 1, some 2, some 3⟩ := by
    norm_num [c10sdf, alookup]
  exact ⟨h, c10_ec_merge c10sdf [] [(5, some 7)] 5 _ h⟩

/- ---------------------------------------------------------------- -/
/- Series normalizer merge: merge_datasets.py, concat_sonar          -/
/- (lines 61-113) and concat_tilt (lines 116-201).                   -/
/- ---------------------------------------------------------------- -/

/-- The merge loop of concat_sonar (merge_datasets.py lines 70-103): each
file's canonical rows (the per-file parsing, bound filtering and unit
handling produce the row values) are appended to the accumulated frame and
duplicate timestamps are dropped keeping the first occurrence
(`pd.concat` then `df[~df.index.duplicated(keep='first')]`). -/
def concat_sonar (files : List (List (Nat × α))) : List (Nat × α) :=
  files.foldl (fun df f => dedupKeepFirst (df ++ f)) []

/-- Permutation fact for the stable insertion. -/
theorem perm_ordIns (key : α → Nat) (x : α) (l : List α) :
    List.Perm (ordIns key x l) (x :: l) := by
  induction l with
  | nil => exact List.Perm.refl _
  | cons y ys ih =>
    by_cases h : key x ≤ key y
    · rw [ordIns, if_pos h]
    · rw [ordIns, if_neg h]
      exact (List.Perm.cons y ih).trans (List.Perm.swap x y ys)

/-- The stable sort permutes its input. -/
theorem sortByKey_perm (key : α → Nat) (l : List α) :
    List.Perm (sortByKey key l) l := by
  induction l with
  | nil => exact List.Perm.refl _
  | cons x xs ih =>
    rw [sortByKey]
    exact (perm_ordIns key x (sortByKey key xs)).trans (List.Perm.cons x ih)

/-- Tie-reversing insertion: insert x after every element whose key does
not exceed... here, after every element of key ≤ key x, including the
equal ones, so equal keys end up in reversed order. -/
def ordInsB (key : α → Nat) (x : α) : List α → List α
  | [] => [x]
  | y :: ys => if key x < key y then x :: y :: ys else y :: ordInsB key x ys

/-- A sort by key that reverses the relative order of equal keys: an
equally admissible implementation of an unstable sort_index. -/
def sortByKeyB (key : α → Nat) : List α → List α
  | [] => []
  | x :: xs => ordInsB key x (sortByKeyB key xs)

theorem mem_ordInsB (key : α → Nat) (x z : α) (l : List α) :
    z ∈ ordInsB key x l ↔ z = x ∨ z ∈ l := by
  induction l with
  | nil => simp [ordInsB]
  | cons y ys ih =>
    by_cases h : key x < key y
    · simp [ordInsB, h]
    · simp [ordInsB, h, ih]
      tauto

theorem keySorted_ordInsB (key : α → Nat) (x : α) {l : List α}
    (hl : KeySorted key l) : KeySorted key (ordInsB key x l) := by
  induction l with
  | nil => simp [ordInsB, KeySorted]
  | cons y ys ih =>
    rw [KeySorted, List.pairwise_cons] at hl
    obtain ⟨hy, hys⟩ := hl
    by_cases h : key x < key y
    · rw [ordInsB, if_pos h, KeySorted, List.pairwise_cons]
      refine ⟨?_, List.pairwise_cons.mpr ⟨hy, hys⟩⟩
      intro z hz
      rcases List.mem_cons.mp hz with rfl | hz
      · exact le_of_lt h
      · exact le_trans (le_of_lt h) (hy z hz)
    · rw [ordInsB, if_neg h, KeySorted, List.pairwise_cons]
      refine ⟨?_, ih hys⟩
      intro z hz
      rcases (mem_ordInsB key x z ys).mp hz with rfl | hz
      · exact Nat.le_of_not_lt h
      · exact hy z hz

theorem keySorted_sortByKeyB (key : α → Nat) (l : List α) :
    KeySorted key (sortByKeyB key l) := by
  induction l with
  | nil => simp [sortByKeyB, KeySorted]
  | cons x xs ih => rw [sortByKeyB]; exact keySorted_ordInsB key x ih

theorem perm_ordInsB (key : α → Nat) (x : α) (l : List α) :
    List.Perm (ordInsB key x l) (x :: l) := by
  induction l with
  | nil => exact List.Perm.refl _
  | cons y ys ih =>
    by_cases h : key x < key y
    · rw [ordInsB, if_pos h]
    · rw [ordInsB, if_neg h]
      exact (List.Perm.cons y ih).trans (List.Perm.swap x y ys)

theorem sortByKeyB_perm (key : α → Nat) (l : List α) :
    List.Perm (sortByKeyB key l) l := by
  induction l with
  | nil => exact List.Perm.refl _
  | cons x xs ih =>
    rw [sortByKeyB]
    exact (perm_ordInsB key x (sortByKeyB key xs)).trans
      (List.Perm.cons x ih)

/-- What pandas guarantees of `sort_index()` with the default
kind='quicksort' (merge_datasets.py line 190): the output is a permutation
of the input ordered by the index key — and nothing about the relative
order of equal keys, because that sort kind is not stable.  Any function
satisfying this is an admissible behaviour of line 190. -/
def IsKeySort (sortfn : List (Nat × α) → List (Nat × α)) : Prop :=
  ∀ l, List.Perm (sortfn l) l ∧ KeySorted (fun p => p.1) (sortfn l)

/-- The stable sort is one admissible behaviour of line 190. -/
theorem isKeySort_sortByKey {α : Type} :
    IsKeySort (sortByKey (fun p : Nat × α => p.1)) :=
  fun l => ⟨sortByKey_perm _ l, keySorted_sortByKey _ l⟩

/-- The tie-reversing sort is another admissible behaviour of line 190. -/
theorem isKeySort_sortByKeyB {α : Type} :
    IsKeySort (sortByKeyB (fun p : Nat × α => p.1)) :=
  fun l => ⟨sortByKeyB_perm _ l, keySorted_sortByKeyB _ l⟩

/-- The merge loop of concat_tilt (merge_datasets.py lines 127-191):
`pd.concat`, then `sort_index()`, then drop duplicate timestamps keeping
the first occurrence.  pandas sorts with the default kind='quicksort',
which is NOT stable, so the sort is a parameter here: every IsKeySort
function is an admissible behaviour of line 190 (sortByKey is the stable
one, sortByKeyB an equally admissible tie-reversing one). -/
def concat_tilt (sortfn : List (Nat × α) → List (Nat × α))
    (files : List (List (Nat × α))) : List (Nat × α) :=
  files.foldl (fun df f => dedupKeepFirst (sortfn (df ++ f))) []

theorem alookup_concat_sonar_go {α : Type} (t : Nat) :
    ∀ (files : List (List (Nat × α))) (df : List (Nat × α)),
      alookup (files.foldl (fun acc f => dedupKeepFirst (acc ++ f)) df) t
        = match alookup df t with
          | some v => some v
          | none => alookup files.flatten t := by
  intro files
  induction files with
  | nil =>
    intro df
    cases h : alookup df t <;> simp [h, alookup]
  | cons f fs ih =>
    intro df
    rw [List.foldl_cons, ih, alookup_dedupKeepFirst, List.flatten_cons]
    cases hdf : alookup df t with
    | some v => rw [alookup_append_left hdf]
    | none =>
      rw [alookup_append_right hdf]
      cases hf : alookup f t with
      | some u => rw [alookup_append_left hf]
      | none => rw [alookup_append_right hf]

theorem alookup_concat_tilt_go {α : Type} (t : Nat) :
    ∀ (files : List (List (Nat × α))) (df : List (Nat × α)),
      alookup (files.foldl
          (fun acc f => dedupKeepFirst (sortByKey (fun p => p.1) (acc ++ f)))
          df) t
        = match alookup df t with
          | some v => some v
          | none => alookup files.flatten t := by
  intro files
  induction files with
  | nil =>
    intro df
    cases h : alookup df t <;> simp [h, alookup]
  | cons f fs ih =>
    intro df
    rw [List.foldl_cons, ih, alookup_dedupKeepFirst, alookup_sortByKey,
      List.flatten_cons]
    cases hdf : alookup df t with
    | some v => rw [alookup_append_left hdf]
    | none =>
      rw [alookup_append_right hdf]
      cases hf : alookup f t with
      | some u => rw [alookup_append_left hf]
      | none => rw [alookup_append_right hf]

theorem concat_sonar_keys_nodup {α : Type} (files : List (List (Nat × α))) :
    ∀ df : List (Nat × α), (df.map Prod.fst).Nodup →
      ((files.foldl (fun acc f => dedupKeepFirst (acc ++ f)) df).map
        Prod.fst).Nodup := by
  induction files with
  | nil => intro df h; exact h
  | cons f fs ih =>
    intro df _
    rw [List.foldl_cons]
    exact ih _ (dedupKeepFirst_keys_nodup _)

theorem concat_tilt_keys_nodup {α : Type}
    (sortfn : List (Nat × α) → List (Nat × α))
    (files : List (List (Nat × α))) :
    ∀ df : List (Nat × α), (df.map Prod.fst).Nodup →
      ((files.foldl (fun acc f => dedupKeepFirst (sortfn (acc ++ f)))
          df).map Prod.fst).Nodup := by
  induction files with
  | nil => intro df h; exact h
  | cons f fs ih =>
    intro df _
    rw [List.foldl_cons]
    exact ih _ (dedupKeepFirst_keys_nodup _)

/-- C9 (amended): both merges keep exactly one row per timestamp — the
tilt merge under every choice of sort — and the surviving value at a
timestamp is the first one seen in the caller's file iteration order
(`files.flatten` lists every row in that order and `alookup` finds the
first match) for the sonar merge, which performs no sort, and for the tilt
merge whenever line 190's sort_index is stable (sortByKey); pandas'
default unstable quicksort does not guarantee which duplicate survives. -/
theorem c9_first_seen_wins {α : Type} (files : List (List (Nat × α)))
    (sortfn : List (Nat × α) → List (Nat × α)) (t : Nat) :
    (alookup (concat_sonar files) t = alookup files.flatten t
      ∧ ((concat_sonar files).map Prod.fst).Nodup)
    ∧ (alookup (concat_tilt (sortByKey fun p => p.1) files) t
          = alookup files.flatten t
        ∧ ((concat_tilt (sortByKey fun p => p.1) files).map
            Prod.fst).Nodup)
    ∧ ((concat_tilt sortfn files).map Prod.fst).Nodup := by
  refine ⟨⟨?_, ?_⟩, ⟨?_, ?_⟩, ?_⟩
  · exact alookup_concat_sonar_go t files []
  · exact concat_sonar_keys_nodup files [] (by simp)
  · exact alookup_concat_tilt_go t files []
  · exact concat_tilt_keys_nodup (sortByKey fun p => p.1) files [] (by simp)
  · exact concat_tilt_keys_nodup sortfn files [] (by simp)

/-- C9 counterexample: two tilt files share timestamp 5 with values 1 then
2.  sortByKeyB is an admissible implementation of line 190's unstable
sort_index (it returns a key-sorted permutation, reversing ties), and
under it the tilt merge keeps the SECOND file's value at the shared
timestamp while the first-seen value is the first file's — first-seen-wins
is not a guarantee the program gives for the tilt merge. -/
theorem c9_counterexample :
    IsKeySort (sortByKeyB (fun p : Nat × Nat => p.1))
      ∧ alookup (concat_tilt (sortByKeyB fun p : Nat × Nat => p.1)
            [[(5, 1)], [(5, 2)]]) 5 = some 2
      ∧ alookup ([[(5, 1)], [(5, 2)]] : List (List (Nat × Nat))).flatten 5
          = some 1
      ∧ alookup (concat_tilt (sortByKeyB fun p : Nat × Nat => p.1)
            [[(5, 1)], [(5, 2)]]) 5
          ≠ alookup ([[(5, 1)], [(5, 2)]] :
              List (List (Nat × Nat))).flatten 5 :=
  ⟨isKeySort_sortByKeyB, by decide, by decide, by decide⟩
